import Mathlib

/-
Verification of the data-transformation pipeline of DataVisualization.py:
table selection, team-name normalization, finals expansion (per-year
winner and runner-up relation), country-code lookup, and the per-year
result lookup. Machine integers are modelled as Int, missing cells (NaN)
as Option, and Python exceptions as an explicit error type.
-/

deriving instance DecidableEq for Except

namespace DV

/-- Python exception kinds relevant to the script. `nameError` is the
unbound-variable error raised when the selection loop never assigns
`wcWinnerData`; `keyError` is a missing-column access on a DataFrame;
`valueError` is an integer-conversion failure; `indexError` is
`iloc[0]` on an empty selection. `tableNotFound` models the dedicated
TableNotFoundError of the error taxonomy in the specification; the
script itself never raises it. -/
inductive PyError where
  | nameError
  | keyError
  | valueError
  | indexError
  | tableNotFound
deriving DecidableEq

/-- Whitespace characters stripped by the Python `str.strip()` method
(ASCII subset; the team names and year tokens contain no other
whitespace). -/
def isPySpace (c : Char) : Bool :=
  c = ' ' || c = '\t' || c = '\n' || c = '\r' || c = Char.ofNat 11 || c = Char.ofNat 12

/-- Python `str.strip()` on a character list: drop whitespace from both
ends. -/
def pyStripList (cs : List Char) : List Char :=
  ((cs.dropWhile isPySpace).reverse.dropWhile isPySpace).reverse

/-- Index of the last closing bracket in a character list, if any
(accumulator: current index and best index found so far). -/
def lastCloseIdxAux : List Char → Nat → Option Nat → Option Nat
  | [], _, best => best
  | c :: cs, i, best => lastCloseIdxAux cs (i + 1) (if c = ']' then some i else best)

/-- Index of the last closing bracket in a character list, if any. -/
def lastCloseIdx (cs : List Char) : Option Nat :=
  lastCloseIdxAux cs 0 none

/-- One pass of `re.sub` with the greedy pattern matching a literal
opening bracket, then any characters other than newline, then a literal
closing bracket, replaced by the empty string (line 20 of the source).
At an opening bracket the greedy match extends to the last closing
bracket on the same line; scanning resumes after the removed match.
The fuel argument (instantiated with the input length, which bounds the
number of steps) keeps the recursion structural. -/
def stripBracketsFuel : Nat → List Char → List Char
  | 0, cs => cs
  | _ + 1, [] => []
  | fuel + 1, c :: cs =>
    if c = '[' then
      match lastCloseIdx (cs.takeWhile (fun d => ¬ d = '\n')) with
      | some k =>
        stripBracketsFuel fuel
          ((cs.takeWhile (fun d => ¬ d = '\n')).drop (k + 1) ++
            cs.drop (cs.takeWhile (fun d => ¬ d = '\n')).length)
      | none => c :: stripBracketsFuel fuel cs
    else c :: stripBracketsFuel fuel cs

/-- Team-name normalization, lines 18 to 23 of the source: remove
bracketed footnote annotations, strip surrounding whitespace, then apply
the one-entry rename table replacing the exact value West Germany by
Germany (pandas `Series.replace` with a dict replaces exact cell
values). -/
def normalizeTeam (s : String) : String :=
  let cleaned := (pyStripList (stripBracketsFuel s.toList.length s.toList)).asString
  if cleaned = "West Germany" then "Germany" else cleaned

/-- Numeric value of a decimal digit character. -/
def digitVal (c : Char) : Nat := c.toNat - 48

/-- Digit-run parser for Python `int(str)`: decimal digits with single
underscores allowed between digits, accumulating the value. Assumes the
first character was already checked to be a digit. -/
def pyDigitsAux : List Char → Nat → Option Nat
  | [], acc => some acc
  | '_' :: c :: cs, acc =>
    if c.isDigit then pyDigitsAux cs (acc * 10 + digitVal c) else none
  | ['_'], _ => none
  | c :: cs, acc =>
    if c.isDigit then pyDigitsAux cs (acc * 10 + digitVal c) else none

/-- Digit run with optional underscore grouping; must start with a
digit and must be non-empty. -/
def pyDigits (cs : List Char) : Option Nat :=
  match cs with
  | [] => none
  | c :: _ => if c.isDigit then pyDigitsAux cs 0 else none

/-- Python `int(str)` as used by `astype(int)` on object columns and by
the year-token parsing: strip whitespace, optional sign, decimal digits
(with underscore grouping). Returns none where Python raises ValueError.
Non-ASCII digits are not modelled (none occur in the data). -/
def parsePyInt (s : String) : Option Int :=
  match pyStripList s.toList with
  | '-' :: rest => (pyDigits rest).map (fun n => -(n : Int))
  | '+' :: rest => (pyDigits rest).map (fun n => (n : Int))
  | cs => (pyDigits cs).map (fun n => (n : Int))

/-- Splitting accumulator for Python `str.split` on a comma. -/
def splitCommaAux : List Char → List Char → List String
  | [], acc => [acc.reverse.asString]
  | ',' :: cs, acc => acc.reverse.asString :: splitCommaAux cs []
  | c :: cs, acc => splitCommaAux cs (c :: acc)

/-- Python `s.split(czComma)` semantics: split on every comma, never
merging; the empty string yields one empty token. -/
def pySplitComma (s : String) : List String :=
  splitCommaAux s.toList []

/-- Year-list parsing of line 32 and 37 of the source: split the field
on commas and parse each token with `int(token.strip())` (the strip is
part of `parsePyInt`). Returns none where Python raises ValueError on a
malformed token. -/
def parseYearList (s : String) : Option (List Int) :=
  (pySplitComma s).mapM parsePyInt

/-- Prefix test on character lists. -/
def leadsWith : List Char → List Char → Bool
  | [], _ => true
  | _ :: _, [] => false
  | p :: ps, h :: hs => p = h && leadsWith ps hs

/-- Substring test on character lists (Python `in` on strings). -/
def isSubstring (pat : List Char) : List Char → Bool
  | [] => pat.isEmpty
  | h :: t => leadsWith pat (h :: t) || isSubstring pat t

/-- Python `pat in hay` for strings. -/
def strContains (hay pat : String) : Bool :=
  isSubstring pat.toList hay.toList

/-- A single quote character, used by the pandas Index repr. -/
def sq : String := String.singleton (Char.ofNat 39)

/-- Stringification of a pandas column Index of string labels, as
produced by `str(table.columns)`: each label single-quoted, joined with
comma and space, wrapped in the Index constructor text with the object
dtype. Line wrapping of very long reprs is not modelled; it cannot
affect the two markers searched for, which contain no comma or quote. -/
def strColumns (cols : List String) : String :=
  "Index([" ++ String.intercalate ", " (cols.map (fun c => sq ++ c ++ sq)) ++
    "], dtype=" ++ sq ++ "object" ++ sq ++ ")"

/-- One row of the raw selected table, before normalization: the team
cell may be missing (NaN); the three count cells and the two year-list
cells are raw text (a NaN count cell is modelled as unparsable text).
The fixed six-column shape mirrors the column assignment of line 15. -/
structure RawRow where
  team : Option String
  wins : String
  runnersUp : String
  totalFinals : String
  yearsWon : Option String
  yearsRunnersUp : Option String
deriving DecidableEq

/-- A parsed HTML table: its column header labels and its rows. -/
structure RawTable where
  columns : List String
  rows : List RawRow
deriving DecidableEq

/-- A row of `wcWinnerData` after normalization (lines 15 to 27): team
name normalized, counts converted to integers, year-list fields kept as
raw optional text (parsed later by the finals expander). -/
structure TeamRecord where
  team : String
  wins : Int
  runnersUp : Int
  totalFinals : Int
  yearsWon : Option String
  yearsRunnersUp : Option String
deriving DecidableEq

/-- One element of the `matches` list built on lines 29 to 39: a dict
with either a Winner key or a Runner-up key, plus the Year. -/
inductive MatchEntry where
  | winner (year : Int) (team : String)
  | runnerUp (year : Int) (team : String)
deriving DecidableEq

/-- A row of `finals_df`: Year, Winner, and the optional Runner-up
(missing when the left join found no match). -/
structure FinalRow where
  year : Int
  winner : String
  runnerUp : Option String
deriving DecidableEq

/-- Header test of line 11: both the Team marker and the Winners marker
occur (case-sensitively) in the stringified columns. -/
def hasMarkers (t : RawTable) : Bool :=
  strContains (strColumns t.columns) "Team" && strContains (strColumns t.columns) "Winners"

/-- Table selection, lines 10 to 13: the loop takes the first table
whose stringified header contains both markers and breaks. When no
table matches, `wcWinnerData` is never assigned and line 15 raises
NameError. -/
def selectTable (tables : List RawTable) : Except PyError RawTable :=
  match tables.find? hasMarkers with
  | some t => Except.ok t
  | none => Except.error PyError.nameError

/-- Normalization pipeline of lines 16 to 27: drop rows with a missing
team cell, normalize the team name, convert the three count columns
with `astype(int)`. The source converts column by column while this
definition recurses row by row; both fail exactly when some kept row
has an unparsable count cell, and the error is ValueError either way,
so the results coincide. -/
def wcNormalize : List RawRow → Except PyError (List TeamRecord)
  | [] => Except.ok []
  | r :: rs =>
    match r.team with
    | none => wcNormalize rs
    | some t =>
      match parsePyInt r.wins, parsePyInt r.runnersUp, parsePyInt r.totalFinals with
      | some w, some ru, some tf =>
        match wcNormalize rs with
        | Except.ok rest =>
          Except.ok (⟨normalizeTeam t, w, ru, tf, r.yearsWon, r.yearsRunnersUp⟩ :: rest)
        | Except.error e => Except.error e
      | _, _, _ => Except.error PyError.valueError

/-- Year pairs contributed by one field of one record, lines 31 to 34
and 36 to 39: a missing cell or the em-dash sentinel contributes no
pairs; otherwise the field is split on commas and each token parsed,
ValueError on a malformed token. -/
def yearEntries : Option String → (Int → MatchEntry) → Except PyError (List MatchEntry)
  | none, _ => Except.ok []
  | some s, mk =>
    if s = "—" then Except.ok []
    else
      match parseYearList s with
      | some ys => Except.ok (ys.map mk)
      | none => Except.error PyError.valueError

/-- Pairs contributed by one record: winner pairs first (so a malformed
winner field fails before the runner-up field is examined), then
runner-up pairs, matching the loop body of lines 30 to 39. -/
def rowMatches (r : TeamRecord) : Except PyError (List MatchEntry) :=
  match yearEntries r.yearsWon (fun y => MatchEntry.winner y r.team) with
  | Except.error e => Except.error e
  | Except.ok ws =>
    match yearEntries r.yearsRunnersUp (fun y => MatchEntry.runnerUp y r.team) with
    | Except.error e => Except.error e
    | Except.ok rus => Except.ok (ws ++ rus)

/-- The `matches` list of lines 29 to 39: rows in order, each
contributing its winner pairs then its runner-up pairs. -/
def buildMatches : List TeamRecord → Except PyError (List MatchEntry)
  | [] => Except.ok []
  | r :: rs =>
    match rowMatches r with
    | Except.error e => Except.error e
    | Except.ok m =>
      match buildMatches rs with
      | Except.error e => Except.error e
      | Except.ok ms => Except.ok (m ++ ms)

/-- The `winners` frame of line 42: rows of `matches` whose Winner cell
is present, projected to (Year, Winner). -/
def winnersOf (ms : List MatchEntry) : List (Int × String) :=
  ms.filterMap (fun m =>
    match m with
    | MatchEntry.winner y t => some (y, t)
    | MatchEntry.runnerUp _ _ => none)

/-- The `runners` frame of line 43: rows of `matches` whose Runner-up
cell is present, projected to (Year, Runner-up). -/
def runnersOf (ms : List MatchEntry) : List (Int × String) :=
  ms.filterMap (fun m =>
    match m with
    | MatchEntry.runnerUp y t => some (y, t)
    | MatchEntry.winner _ _ => none)

/-- Rows produced by one left-frame row in the left merge on Year: one
output row per matching right row (in right-frame order), or a single
row with a missing Runner-up when no right row matches. -/
def joinRow (rus : List (Int × String)) (p : Int × String) : List FinalRow :=
  match rus.filter (fun q => q.1 == p.1) with
  | [] => [⟨p.1, p.2, none⟩]
  | l => l.map (fun q => ⟨p.1, p.2, some q.2⟩)

/-- The pandas left merge of line 44: left rows in order, each expanded
by its matching right rows. -/
def leftJoin (ws rus : List (Int × String)) : List FinalRow :=
  ws.flatMap (joinRow rus)

/-- Accumulator for `drop_duplicates`: keep each row the first time its
value is seen. -/
def dedupFirstAux {α : Type} [DecidableEq α] : List α → List α → List α
  | [], _ => []
  | r :: l, seen =>
    if r ∈ seen then dedupFirstAux l seen else r :: dedupFirstAux l (r :: seen)

/-- Pandas `drop_duplicates()` of line 44: keep the first occurrence of
each row value (missing Runner-up cells compare equal, as pandas treats
NaN as equal when dropping duplicates). -/
def pdDropDuplicates {α : Type} [DecidableEq α] (l : List α) : List α :=
  dedupFirstAux l []

/-- The `finals_df` construction of lines 41 to 44. Building the
DataFrame from the `matches` dicts gives it exactly the keys that occur
as columns; when no dict has a Winner key line 42 raises KeyError, and
when no dict has a Runner-up key line 43 raises KeyError. Otherwise the
winner rows are left-merged with the runner-up rows on Year and exact
duplicate rows are dropped. -/
def finals_df (rs : List TeamRecord) : Except PyError (List FinalRow) :=
  match buildMatches rs with
  | Except.error e => Except.error e
  | Except.ok ms =>
    if winnersOf ms = [] then Except.error PyError.keyError
    else if runnersOf ms = [] then Except.error PyError.keyError
    else Except.ok (pdDropDuplicates (leftJoin (winnersOf ms) (runnersOf ms)))

/-- The fixed `iso_codes` mapping of lines 48 to 53, in source order.
Python dict keys are unique, so an association list with distinct keys
is a faithful model. -/
def iso_codes : List (String × String) :=
  [("Brazil", "BRA"), ("Germany", "DEU"), ("Italy", "ITA"), ("Argentina", "ARG"),
   ("France", "FRA"), ("Uruguay", "URY"), ("England", "GBR"), ("Spain", "ESP"),
   ("Netherlands", "NLD"), ("Hungary", "HUN"), ("Czechoslovakia", "CZE"),
   ("Sweden", "SWE"), ("Croatia", "HRV")]

/-- Dict lookup behind `Series.map(iso_codes)`: the value at the key
equal to the team name, or none when the name is not a key. -/
def lookupCode (team : String) : Option String :=
  (iso_codes.find? (fun p => p.1 == team)).map (fun p => p.2)

/-- Line 55: the Code column is computed for every row of
`wcWinnerData`, champions and non-champions alike. -/
def addCodes (l : List TeamRecord) : List (TeamRecord × Option String) :=
  l.map (fun r => (r, lookupCode r.team))

/-- Line 57: the `winners` table keeps the rows with Wins strictly
positive, after the Code column was already computed on line 55. -/
def winnersTable (l : List TeamRecord) : List (TeamRecord × Option String) :=
  (addCodes l).filter (fun p => 0 < p.1.wins)

/-- Data access of the `update_result` callback, lines 246 to 247:
select the finals rows with the chosen Year and take the row at
position zero with `iloc[0]`, which raises IndexError on an empty
selection. -/
def update_result (finals : List FinalRow) (year : Int) : Except PyError FinalRow :=
  match finals.filter (fun r => r.year == year) with
  | [] => Except.error PyError.indexError
  | r :: _ => Except.ok r

/-- Input with one winner and two distinct runner-up entries for the
same year. -/
def exC1 : List TeamRecord :=
  [⟨"Uruguay", 2, 0, 2, some "1950", some "—"⟩,
   ⟨"Brazil", 0, 1, 1, some "—", some "1950"⟩,
   ⟨"Sweden", 0, 1, 1, some "—", some "1950"⟩]

/-- Input whose winner pairs and runner-up pairs are each functional in
the year. -/
def exC1w : List TeamRecord :=
  [⟨"Uruguay", 1, 0, 1, some "1930", some "—"⟩,
   ⟨"Argentina", 0, 1, 1, some "—", some "1930"⟩]

/-- Raw row whose team cell is only a footnote and whose Wins cell is a
negative integer. -/
def exC2 : RawRow := ⟨some "[a]", "-1", "0", "0", none, none⟩

/-- Raw row with a footnoted team name and nonnegative count cells. -/
def exC2w : RawRow := ⟨some "Brazil[a]", "5", "2", "7", some "1958", some "1950"⟩

/-- A parsed table whose header does not carry both markers. -/
def exC3bad : RawTable := ⟨["Year", "Hosts"], []⟩

/-- A parsed table whose header carries the Team and Winners markers. -/
def exC3good : RawTable := ⟨["Team", "Winners", "Runners-up"], []⟩

/-- Input where a year has a winner and no record contributes any
runner-up pair at all. -/
def exC4 : List TeamRecord := [⟨"Uruguay", 1, 0, 1, some "1930", some "—"⟩]

/-- Input where the year 1930 has a winner and no runner-up, while
another year contributes a runner-up pair. -/
def exC4w : List TeamRecord :=
  [⟨"Uruguay", 1, 0, 1, some "1930", some "—"⟩,
   ⟨"Italy", 1, 0, 1, some "1934", some "—"⟩,
   ⟨"Czechoslovakia", 0, 1, 1, some "—", some "1934"⟩]

/-- Raw rows carrying the two team-name values of the round-trip
property. -/
def exC5 : List RawRow :=
  [⟨some "West Germany", "4", "4", "8", none, none⟩,
   ⟨some "Brazil[a]", "5", "2", "7", none, none⟩]

/-- Record whose runner-up years cell is the em-dash sentinel. -/
def exC6a : TeamRecord := ⟨"Hungary", 0, 2, 2, some "1938", some "—"⟩

/-- Record whose winner years cell is the em-dash sentinel. -/
def exC6b : TeamRecord := ⟨"Netherlands", 0, 3, 3, some "—", some "1974"⟩

/-- Record of a team that is in the code table but has zero wins. -/
def exC8 : TeamRecord := ⟨"Croatia", 0, 1, 1, none, none⟩

/-- Input with a winner-less runner-up year (2014 only as runner-up
with no winning record for it). -/
def exC9w : List TeamRecord :=
  [⟨"Spain", 1, 0, 1, some "2010", some "—"⟩,
   ⟨"Netherlands", 0, 1, 1, some "—", some "2010, 2014"⟩]

/-- A one-row finals table. -/
def exC10 : List FinalRow := [⟨1930, "Uruguay", some "Argentina"⟩]

/-- A two-record input exercising multi-year fields. -/
def exC7 : List TeamRecord :=
  [⟨"Argentina", 3, 3, 6, some "1978, 1986, 2022", some "1930, 1990, 2014"⟩,
   ⟨"France", 2, 2, 4, some "1998, 2018", some "2006, 2022"⟩]

/-- Membership in the dedup accumulator: an element is kept exactly
when it occurs in the remaining input and was not seen before. -/
theorem mem_dedupFirstAux {α : Type} [DecidableEq α] (x : α) :
    ∀ (l seen : List α), x ∈ dedupFirstAux l seen ↔ (x ∈ l ∧ x ∉ seen) := by
  intro l
  induction l with
  | nil => intro seen; simp [dedupFirstAux]
  | cons r l ih =>
    intro seen
    by_cases hr : r ∈ seen
    · rw [dedupFirstAux, if_pos hr, ih]
      constructor
      · exact fun h => ⟨List.mem_cons_of_mem r h.1, h.2⟩
      · rintro ⟨hm, hs⟩
        rcases List.mem_cons.mp hm with he | hm2
        · exact absurd (he ▸ hr) hs
        · exact ⟨hm2, hs⟩
    · rw [dedupFirstAux, if_neg hr]
      constructor
      · intro h
        rcases List.mem_cons.mp h with he | h2
        · exact ⟨he ▸ List.mem_cons_self r l, he ▸ hr⟩
        · rcases (ih (r :: seen)).mp h2 with ⟨hm, hs⟩
          exact ⟨List.mem_cons_of_mem r hm, fun hx => hs (List.mem_cons_of_mem r hx)⟩
      · rintro ⟨hm, hs⟩
        by_cases hxr : x = r
        · exact hxr ▸ List.mem_cons_self r _
        · rcases List.mem_cons.mp hm with he | hm2
          · exact absurd he hxr
          · refine List.mem_cons_of_mem r ((ih (r :: seen)).mpr ⟨hm2, ?_⟩)
            intro hx
            rcases List.mem_cons.mp hx with he | hx2
            · exact hxr he
            · exact hs hx2

/-- Dropping duplicates does not change the set of rows. -/
theorem mem_pdDropDuplicates {α : Type} [DecidableEq α] (x : α) (l : List α) :
    x ∈ pdDropDuplicates l ↔ x ∈ l := by
  rw [pdDropDuplicates, mem_dedupFirstAux]
  simp

/-- Every row emitted for a left-frame pair carries that pair as its
Year and Winner. -/
theorem joinRow_fields (rus : List (Int × String)) (p : Int × String) (r : FinalRow)
    (h : r ∈ joinRow rus p) : r.year = p.1 ∧ r.winner = p.2 := by
  rw [joinRow] at h
  rcases hf : rus.filter (fun q => q.1 == p.1) with _ | ⟨q, qs⟩ <;> rw [hf] at h
  · simp at h
    rw [h]
    exact ⟨rfl, rfl⟩
  · rcases List.mem_map.mp h with ⟨a, _, ha⟩
    rw [← ha]
    exact ⟨rfl, rfl⟩

/-- A present Runner-up cell in an emitted row comes from a right-frame
pair with the same year. -/
theorem joinRow_runner (rus : List (Int × String)) (p : Int × String) (r : FinalRow)
    (h : r ∈ joinRow rus p) (ru : String) (hru : r.runnerUp = some ru) :
    ∃ q ∈ rus, q.1 = p.1 ∧ q.2 = ru := by
  rw [joinRow] at h
  rcases hf : rus.filter (fun q => q.1 == p.1) with _ | ⟨q, qs⟩ <;> rw [hf] at h
  · simp at h
    rw [h] at hru
    simp at hru
  · rcases List.mem_map.mp h with ⟨a, haf, ha⟩
    have hamem : a ∈ rus.filter (fun q => q.1 == p.1) := by rw [hf]; exact haf
    rcases List.mem_filter.mp hamem with ⟨harus, haeq⟩
    refine ⟨a, harus, eq_of_beq haeq, ?_⟩
    rw [← ha] at hru
    simpa using hru

/-- When no right-frame pair has the year of the left-frame pair, the
join emits exactly the single row with a missing Runner-up. -/
theorem joinRow_no_match (rus : List (Int × String)) (p : Int × String)
    (h : ∀ q ∈ rus, q.1 ≠ p.1) : joinRow rus p = [⟨p.1, p.2, none⟩] := by
  rw [joinRow]
  have hf : rus.filter (fun q => q.1 == p.1) = [] := by
    rw [List.filter_eq_nil_iff]
    intro a ha
    simpa using h a ha
  rw [hf]

/-- Under a functional right frame, all rows emitted for one left-frame
pair are equal. -/
theorem joinRow_det (rus : List (Int × String)) (p : Int × String)
    (hr : ∀ a ∈ rus, ∀ b ∈ rus, a.1 = b.1 → a = b)
    (r1 r2 : FinalRow) (h1 : r1 ∈ joinRow rus p) (h2 : r2 ∈ joinRow rus p) : r1 = r2 := by
  rw [joinRow] at h1 h2
  rcases hf : rus.filter (fun q => q.1 == p.1) with _ | ⟨q, qs⟩ <;> rw [hf] at h1 h2
  · simp at h1 h2
    rw [h1, h2]
  · rcases List.mem_map.mp h1 with ⟨a, haf, ha⟩
    rcases List.mem_map.mp h2 with ⟨b, hbf, hb⟩
    have hamem : a ∈ rus.filter (fun q => q.1 == p.1) := by rw [hf]; exact haf
    have hbmem : b ∈ rus.filter (fun q => q.1 == p.1) := by rw [hf]; exact hbf
    rcases List.mem_filter.mp hamem with ⟨harus, haeq⟩
    rcases List.mem_filter.mp hbmem with ⟨hbrus, hbeq⟩
    have hab : a = b := by
      apply hr a harus b hbrus
      have ha1 : a.1 = p.1 := eq_of_beq haeq
      have hb1 : b.1 = p.1 := eq_of_beq hbeq
      rw [ha1, hb1]
    rw [← ha, ← hb, hab]

/-- Every row of the left merge carries a left-frame pair as its Year
and Winner. -/
theorem leftJoin_winner_mem (ws rus : List (Int × String)) (r : FinalRow)
    (h : r ∈ leftJoin ws rus) : (r.year, r.winner) ∈ ws := by
  rcases List.mem_flatMap.mp h with ⟨p, hp, hjp⟩
  rcases joinRow_fields rus p r hjp with ⟨hy, hw⟩
  rw [hy, hw]
  exact hp

/-- A left-frame pair whose year no right-frame pair shares contributes
its row with a missing Runner-up to the merge. -/
theorem leftJoin_keeps (ws rus : List (Int × String)) (y : Int) (w : String)
    (hw : (y, w) ∈ ws) (hnr : ∀ q ∈ rus, q.1 ≠ y) :
    (⟨y, w, none⟩ : FinalRow) ∈ leftJoin ws rus := by
  refine List.mem_flatMap.mpr ⟨(y, w), hw, ?_⟩
  rw [joinRow_no_match rus (y, w) hnr]
  exact List.mem_cons_self _ _

/-- Under functional winner and runner-up frames, the merge determines
each row by its year. -/
theorem leftJoin_det (ws rus : List (Int × String))
    (hw : ∀ a ∈ ws, ∀ b ∈ ws, a.1 = b.1 → a = b)
    (hr : ∀ a ∈ rus, ∀ b ∈ rus, a.1 = b.1 → a = b)
    (r1 r2 : FinalRow) (h1 : r1 ∈ leftJoin ws rus) (h2 : r2 ∈ leftJoin ws rus)
    (hy : r1.year = r2.year) : r1 = r2 := by
  rcases List.mem_flatMap.mp h1 with ⟨p1, hp1, hj1⟩
  rcases List.mem_flatMap.mp h2 with ⟨p2, hp2, hj2⟩
  rcases joinRow_fields rus p1 r1 hj1 with ⟨hy1, _⟩
  rcases joinRow_fields rus p2 r2 hj2 with ⟨hy2, _⟩
  have hp12 : p1 = p2 := by
    apply hw p1 hp1 p2 hp2
    rw [← hy1, ← hy2, hy]
  rw [hp12] at hj1
  exact joinRow_det rus p2 hr r1 r2 hj1 hj2

/-- Inversion of a successful finals construction: the produced table
is the deduplicated left merge of the winner and runner-up frames. -/
theorem finals_df_ok (rs : List TeamRecord) (ms : List MatchEntry) (l : List FinalRow)
    (h1 : buildMatches rs = Except.ok ms) (h2 : finals_df rs = Except.ok l) :
    l = pdDropDuplicates (leftJoin (winnersOf ms) (runnersOf ms)) := by
  rw [finals_df, h1] at h2
  dsimp only at h2
  by_cases hw : winnersOf ms = []
  · rw [if_pos hw] at h2
    exact absurd h2 (by simp)
  · rw [if_neg hw] at h2
    by_cases hr : runnersOf ms = []
    · rw [if_pos hr] at h2
      exact absurd h2 (by simp)
    · rw [if_neg hr] at h2
      exact (Except.ok.inj h2).symm

/-- When both frames are non-empty the finals construction succeeds
with the deduplicated left merge. -/
theorem finals_df_eq_ok (rs : List TeamRecord) (ms : List MatchEntry)
    (h1 : buildMatches rs = Except.ok ms)
    (hw : winnersOf ms ≠ []) (hr : runnersOf ms ≠ []) :
    finals_df rs = Except.ok (pdDropDuplicates (leftJoin (winnersOf ms) (runnersOf ms))) := by
  rw [finals_df, h1]
  dsimp only
  rw [if_neg hw, if_neg hr]

/-- Winner pairs contain no runner-up projections. -/
theorem runnersOf_map_winner (ys : List Int) (t : String) :
    runnersOf (ys.map (fun y => MatchEntry.winner y t)) = [] := by
  rw [runnersOf, List.filterMap_map]
  exact List.filterMap_eq_nil_iff.mpr (fun y _ => rfl)

/-- Runner-up pairs contain no winner projections. -/
theorem winnersOf_map_runner (ys : List Int) (t : String) :
    winnersOf (ys.map (fun y => MatchEntry.runnerUp y t)) = [] := by
  rw [winnersOf, List.filterMap_map]
  exact List.filterMap_eq_nil_iff.mpr (fun y _ => rfl)

/-- Structure of a successful normalization: every output record comes
from an input row with a present team cell, its name is the normalized
raw name, and its counts are the parsed count cells. -/
theorem wcNormalize_shape (rows : List RawRow) (l : List TeamRecord)
    (h : wcNormalize rows = Except.ok l) :
    ∀ rec ∈ l, ∃ r ∈ rows, ∃ t, r.team = some t ∧ rec.team = normalizeTeam t ∧
      parsePyInt r.wins = some rec.wins ∧ parsePyInt r.runnersUp = some rec.runnersUp ∧
      parsePyInt r.totalFinals = some rec.totalFinals := by
  induction rows generalizing l with
  | nil =>
    rw [wcNormalize] at h
    cases h
    intro rec hrec
    exact absurd hrec (by simp)
  | cons r rows ih =>
    rw [wcNormalize] at h
    rcases ht : r.team with _ | t <;> rw [ht] at h
    · intro rec hrec
      rcases ih l h rec hrec with ⟨r0, hr0, rest⟩
      exact ⟨r0, List.mem_cons_of_mem r hr0, rest⟩
    · rcases hw : parsePyInt r.wins with _ | w <;> rw [hw] at h
      · cases h
      · rcases hru : parsePyInt r.runnersUp with _ | ru <;> rw [hru] at h
        · cases h
        · rcases htf : parsePyInt r.totalFinals with _ | tf <;> rw [htf] at h
          · cases h
          · rcases hrest : wcNormalize rows with e | rest <;> rw [hrest] at h
            · cases h
            · cases h
              intro rec hrec
              rcases List.mem_cons.mp hrec with he | hm
              · exact ⟨r, List.mem_cons_self r rows, t, ht, by rw [he], by rw [he, hw],
                  by rw [he, hru], by rw [he, htf]⟩
              · rcases ih rest hrest rec hm with ⟨r0, hr0, rest0⟩
                exact ⟨r0, List.mem_cons_of_mem r hr0, rest0⟩

/-- A row with a present team cell that survives normalization yields a
record whose name is the normalized raw name. -/
theorem wcNormalize_mem_team (rows : List RawRow) (l : List TeamRecord) (r : RawRow)
    (t : String) (h : wcNormalize rows = Except.ok l) (hr : r ∈ rows)
    (ht : r.team = some t) : ∃ rec ∈ l, rec.team = normalizeTeam t := by
  induction rows generalizing l with
  | nil => exact absurd hr (by simp)
  | cons r0 rows ih =>
    rw [wcNormalize] at h
    rcases ht0 : r0.team with _ | t0 <;> rw [ht0] at h
    · rcases List.mem_cons.mp hr with he | hm
      · rw [he] at ht
        rw [ht0] at ht
        cases ht
      · exact ih l h hm
    · rcases hw : parsePyInt r0.wins with _ | w <;> rw [hw] at h
      · cases h
      · rcases hru : parsePyInt r0.runnersUp with _ | ru <;> rw [hru] at h
        · cases h
        · rcases htf : parsePyInt r0.totalFinals with _ | tf <;> rw [htf] at h
          · cases h
          · rcases hrest : wcNormalize rows with e | rest <;> rw [hrest] at h
            · cases h
            · cases h
              rcases List.mem_cons.mp hr with he | hm
              · refine ⟨⟨normalizeTeam t0, w, ru, tf, r0.yearsWon, r0.yearsRunnersUp⟩,
                  List.mem_cons_self _ _, ?_⟩
                rw [he] at ht
                rw [ht0] at ht
                cases ht
                rfl
              · rcases ih rest hrest hm with ⟨rec, hrec, hteam⟩
                exact ⟨rec, List.mem_cons_of_mem _ hrec, hteam⟩

/-- Winner-side year entries never project to runner-up pairs. -/
theorem runnersOf_winner_entries (field : Option String) (t : String) (ws : List MatchEntry)
    (h : yearEntries field (fun y => MatchEntry.winner y t) = Except.ok ws) :
    runnersOf ws = [] := by
  rcases field with _ | s
  · rw [yearEntries] at h
    cases h
    rfl
  · rw [yearEntries] at h
    by_cases hd : s = "—"
    · rw [if_pos hd] at h
      cases h
      rfl
    · rw [if_neg hd] at h
      rcases hp : parseYearList s with _ | ys <;> rw [hp] at h
      · cases h
      · cases h
        exact runnersOf_map_winner ys t

/-- Runner-up-side year entries never project to winner pairs. -/
theorem winnersOf_runner_entries (field : Option String) (t : String) (rus : List MatchEntry)
    (h : yearEntries field (fun y => MatchEntry.runnerUp y t) = Except.ok rus) :
    winnersOf rus = [] := by
  rcases field with _ | s
  · rw [yearEntries] at h
    cases h
    rfl
  · rw [yearEntries] at h
    by_cases hd : s = "—"
    · rw [if_pos hd] at h
      cases h
      rfl
    · rw [if_neg hd] at h
      rcases hp : parseYearList s with _ | ys <;> rw [hp] at h
      · cases h
      · cases h
        exact winnersOf_map_runner ys t

/-- Claim C5: the Team Normalizer maps the raw name West Germany to
Germany and the raw name Brazil with a bracketed footnote to Brazil,
for every input row carrying those raw team-name values. -/
theorem C5_rename_roundTrip (rows : List RawRow) (l : List TeamRecord)
    (h : wcNormalize rows = Except.ok l) :
    (∀ r ∈ rows, r.team = some "West Germany" → ∃ rec ∈ l, rec.team = "Germany") ∧
    (∀ r ∈ rows, r.team = some "Brazil[a]" → ∃ rec ∈ l, rec.team = "Brazil") := by
  constructor
  · intro r hr ht
    rcases wcNormalize_mem_team rows l r _ h hr ht with ⟨rec, hrec, hteam⟩
    refine ⟨rec, hrec, ?_⟩
    rw [hteam]
    decide
  · intro r hr ht
    rcases wcNormalize_mem_team rows l r _ h hr ht with ⟨rec, hrec, hteam⟩
    refine ⟨rec, hrec, ?_⟩
    rw [hteam]
    decide

/-- Witness for C5: a concrete table containing both raw names, with
the normalizer evaluated on it. -/
theorem C5_rename_roundTrip_witness :
    (∃ rec ∈ ([⟨"Germany", 4, 4, 8, none, none⟩,
               ⟨"Brazil", 5, 2, 7, none, none⟩] : List TeamRecord), rec.team = "Germany") ∧
    (∃ rec ∈ ([⟨"Germany", 4, 4, 8, none, none⟩,
               ⟨"Brazil", 5, 2, 7, none, none⟩] : List TeamRecord), rec.team = "Brazil") := by
  have h : wcNormalize exC5 =
      Except.ok [⟨"Germany", 4, 4, 8, none, none⟩, ⟨"Brazil", 5, 2, 7, none, none⟩] := by
    decide
  have hc := C5_rename_roundTrip exC5 _ h
  exact ⟨hc.1 ⟨some "West Germany", "4", "4", "8", none, none⟩ (by decide) rfl,
         hc.2 ⟨some "Brazil[a]", "5", "2", "7", none, none⟩ (by decide) rfl⟩

/-- Claim C6: a record whose runner-up years cell is the em-dash
sentinel contributes zero runner-up pairs, and symmetrically a record
whose winner years cell is the em-dash sentinel contributes zero winner
pairs. -/
theorem C6_emdash_zero_pairs (r : TeamRecord) (m : List MatchEntry)
    (h : rowMatches r = Except.ok m) :
    (r.yearsRunnersUp = some "—" → runnersOf m = []) ∧
    (r.yearsWon = some "—" → winnersOf m = []) := by
  rw [rowMatches] at h
  rcases hwE : yearEntries r.yearsWon (fun y => MatchEntry.winner y r.team)
      with e | ws <;> rw [hwE] at h
  · cases h
  · rcases hrE : yearEntries r.yearsRunnersUp (fun y => MatchEntry.runnerUp y r.team)
        with e | rus <;> rw [hrE] at h
    · cases h
    · cases h
      constructor
      · intro hsent
        rw [hsent, yearEntries, if_pos rfl] at hrE
        cases hrE
        rw [List.append_nil]
        exact runnersOf_winner_entries r.yearsWon r.team ws hwE
      · intro hsent
        rw [hsent, yearEntries, if_pos rfl] at hwE
        cases hwE
        rw [List.nil_append]
        exact winnersOf_runner_entries r.yearsRunnersUp r.team rus hrE

/-- Witness for C6 at two concrete records, one with each field set to
the sentinel. -/
theorem C6_emdash_zero_pairs_witness :
    runnersOf [MatchEntry.winner 1938 "Hungary"] = [] ∧
    winnersOf [MatchEntry.runnerUp 1974 "Netherlands"] = [] :=
  ⟨(C6_emdash_zero_pairs exC6a [MatchEntry.winner 1938 "Hungary"] (by decide)).1 rfl,
   (C6_emdash_zero_pairs exC6b [MatchEntry.runnerUp 1974 "Netherlands"] (by decide)).2 rfl⟩

/-- Claim C7: the Finals Expander is a pure function of the input
record sequence, so two runs on the same sequence give identical
results, rows, order and multiplicities included. -/
theorem C7_expander_deterministic (rs1 rs2 : List TeamRecord) (h : rs1 = rs2) :
    finals_df rs1 = finals_df rs2 := by
  rw [h]

/-- Witness for C7 at a concrete two-record input. -/
theorem C7_expander_deterministic_witness : finals_df exC7 = finals_df exC7 :=
  C7_expander_deterministic exC7 exC7 rfl

/-- Claim C10: looking up a year absent from the finals table takes
`iloc[0]` of an empty selection and raises IndexError, rather than
returning an absent or empty result. -/
theorem C10_missing_year_indexError (finals : List FinalRow) (y : Int)
    (h : ∀ r ∈ finals, r.year ≠ y) :
    update_result finals y = Except.error PyError.indexError := by
  rw [update_result]
  have hf : finals.filter (fun r => r.year == y) = [] := by
    rw [List.filter_eq_nil_iff]
    intro r hr
    simpa using h r hr
  rw [hf]

/-- Witness for C10: the year 1900 is absent from the concrete finals
table. -/
theorem C10_missing_year_indexError_witness :
    update_result exC10 1900 = Except.error PyError.indexError :=
  C10_missing_year_indexError exC10 1900 (by decide)

/-- Counterexample to C1 as stated: with one winning record and two
distinct runner-up records for 1950, the expanded table holds two
different rows sharing the Year 1950, so Year is not unique for every
input sequence. -/
theorem C1_counterexample :
    finals_df exC1 =
      Except.ok [⟨1950, "Uruguay", some "Brazil"⟩, ⟨1950, "Uruguay", some "Sweden"⟩] ∧
    (⟨1950, "Uruguay", some "Brazil"⟩ : FinalRow) ≠ ⟨1950, "Uruguay", some "Sweden"⟩ := by
  decide

/-- Claim C1 as amended: Year is unique in the expanded table provided
each Year determines at most one distinct winner pair and at most one
distinct runner-up pair among the expanded matches. -/
theorem C1_uniqueYear (rs : List TeamRecord) (ms : List MatchEntry) (l : List FinalRow)
    (h1 : buildMatches rs = Except.ok ms) (h2 : finals_df rs = Except.ok l)
    (hw : ∀ a ∈ winnersOf ms, ∀ b ∈ winnersOf ms, a.1 = b.1 → a = b)
    (hr : ∀ a ∈ runnersOf ms, ∀ b ∈ runnersOf ms, a.1 = b.1 → a = b) :
    ∀ r1 ∈ l, ∀ r2 ∈ l, r1.year = r2.year → r1 = r2 := by
  have hl := finals_df_ok rs ms l h1 h2
  subst hl
  intro r1 h1m r2 h2m hy
  rw [mem_pdDropDuplicates] at h1m h2m
  exact leftJoin_det (winnersOf ms) (runnersOf ms) hw hr r1 r2 h1m h2m hy

/-- Witness for the amended C1 at a concrete input whose match pairs
are functional in the year. -/
theorem C1_uniqueYear_witness :
    finals_df exC1w = Except.ok [⟨1930, "Uruguay", some "Argentina"⟩] ∧
    (⟨1930, "Uruguay", some "Argentina"⟩ : FinalRow) = ⟨1930, "Uruguay", some "Argentina"⟩ := by
  refine ⟨by decide, ?_⟩
  exact C1_uniqueYear exC1w
    [MatchEntry.winner 1930 "Uruguay", MatchEntry.runnerUp 1930 "Argentina"]
    [⟨1930, "Uruguay", some "Argentina"⟩]
    (by decide) (by decide) (by decide) (by decide)
    ⟨1930, "Uruguay", some "Argentina"⟩ (by decide)
    ⟨1930, "Uruguay", some "Argentina"⟩ (by decide) rfl

/-- Counterexample to C4 as stated: when no record contributes any
runner-up pair, the Runner-up column never exists, and a winner year
with no matching runner-up aborts with KeyError on line 43 instead of
yielding a row with an absent Runner-up. -/
theorem C4_counterexample :
    buildMatches exC4 = Except.ok [MatchEntry.winner 1930 "Uruguay"] ∧
    finals_df exC4 = Except.error PyError.keyError := by
  decide

/-- Claim C4 as amended: provided at least one runner-up pair exists
somewhere in the matches, every winner pair whose year no runner-up
pair shares yields a final row with an absent Runner-up, neither
dropped nor an error. -/
theorem C4_leftJoin_keeps_winner (rs : List TeamRecord) (ms : List MatchEntry)
    (y : Int) (w : String) (h1 : buildMatches rs = Except.ok ms)
    (hw : (y, w) ∈ winnersOf ms) (hnr : ∀ q ∈ runnersOf ms, q.1 ≠ y)
    (hne : runnersOf ms ≠ []) :
    ∃ l, finals_df rs = Except.ok l ∧ (⟨y, w, none⟩ : FinalRow) ∈ l := by
  have hwne : winnersOf ms ≠ [] := by
    intro hc
    rw [hc] at hw
    exact absurd hw (by simp)
  refine ⟨_, finals_df_eq_ok rs ms h1 hwne hne, ?_⟩
  rw [mem_pdDropDuplicates]
  exact leftJoin_keeps _ _ y w hw hnr

/-- Witness for the amended C4: 1930 has a winner and no runner-up
while 1934 supplies a runner-up pair, and the 1930 row is kept with an
absent Runner-up. -/
theorem C4_leftJoin_keeps_winner_witness :
    finals_df exC4w =
      Except.ok [⟨1930, "Uruguay", none⟩, ⟨1934, "Italy", some "Czechoslovakia"⟩] ∧
    (⟨1930, "Uruguay", none⟩ : FinalRow) ∈
      [(⟨1930, "Uruguay", none⟩ : FinalRow), ⟨1934, "Italy", some "Czechoslovakia"⟩] := by
  refine ⟨by decide, ?_⟩
  rcases C4_leftJoin_keeps_winner exC4w
      [MatchEntry.winner 1930 "Uruguay", MatchEntry.winner 1934 "Italy",
       MatchEntry.runnerUp 1934 "Czechoslovakia"]
      1930 "Uruguay" (by decide) (by decide) (by decide) (by decide) with ⟨l, hl, hmem⟩
  have hexp : finals_df exC4w =
      Except.ok [⟨1930, "Uruguay", none⟩, ⟨1934, "Italy", some "Czechoslovakia"⟩] := by
    decide
  rw [hl] at hexp
  rw [Except.ok.inj hexp] at hmem
  exact hmem

/-- Claim C9: every row of the expanded table carries a winner pair of
the matches as its Year and Winner, so a year occurring only among
runner-up pairs contributes no row at all. -/
theorem C9_rows_have_winner (rs : List TeamRecord) (ms : List MatchEntry) (l : List FinalRow)
    (h1 : buildMatches rs = Except.ok ms) (h2 : finals_df rs = Except.ok l) :
    (∀ r ∈ l, (r.year, r.winner) ∈ winnersOf ms) ∧
    (∀ y : Int, (∀ p ∈ winnersOf ms, p.1 ≠ y) → ∀ r ∈ l, r.year ≠ y) := by
  have hl := finals_df_ok rs ms l h1 h2
  subst hl
  constructor
  · intro r hm
    rw [mem_pdDropDuplicates] at hm
    exact leftJoin_winner_mem _ _ r hm
  · intro y hy r hm hry
    rw [mem_pdDropDuplicates] at hm
    exact hy (r.year, r.winner) (leftJoin_winner_mem _ _ r hm) hry

/-- Witness for C9: 2014 occurs only as a runner-up year and the sole
produced row has the winner year 2010, not 2014. -/
theorem C9_rows_have_winner_witness :
    finals_df exC9w = Except.ok [⟨2010, "Spain", some "Netherlands"⟩] ∧
    ((⟨2010, "Spain", some "Netherlands"⟩ : FinalRow).year,
      (⟨2010, "Spain", some "Netherlands"⟩ : FinalRow).winner) ∈
      winnersOf [MatchEntry.winner 2010 "Spain", MatchEntry.runnerUp 2010 "Netherlands",
        MatchEntry.runnerUp 2014 "Netherlands"] ∧
    (⟨2010, "Spain", some "Netherlands"⟩ : FinalRow).year ≠ 2014 := by
  refine ⟨by decide, ?_, ?_⟩
  · exact (C9_rows_have_winner exC9w
      [MatchEntry.winner 2010 "Spain", MatchEntry.runnerUp 2010 "Netherlands",
       MatchEntry.runnerUp 2014 "Netherlands"]
      [⟨2010, "Spain", some "Netherlands"⟩] (by decide) (by decide)).1
      ⟨2010, "Spain", some "Netherlands"⟩ (by decide)
  · exact (C9_rows_have_winner exC9w
      [MatchEntry.winner 2010 "Spain", MatchEntry.runnerUp 2010 "Netherlands",
       MatchEntry.runnerUp 2014 "Netherlands"]
      [⟨2010, "Spain", some "Netherlands"⟩] (by decide) (by decide)).2
      2014 (by decide) ⟨2010, "Spain", some "Netherlands"⟩ (by decide)

/-- A name that is not a key of the code table maps to none. -/
theorem lookupCode_not_key (t : String) (h : t ∉ iso_codes.map (fun p => p.1)) :
    lookupCode t = none := by
  rw [lookupCode]
  have hf : iso_codes.find? (fun p => p.1 == t) = none := by
    rw [List.find?_eq_none]
    intro p hp
    simp only [beq_iff_eq]
    intro hpt
    exact absurd (List.mem_map.mpr ⟨p, hp, hpt⟩) h
  rw [hf]
  rfl

/-- Counterexample to C2 as stated: a row whose team cell is only a
footnote marker and whose Wins cell parses as the integer minus one
survives normalization with an empty Team and a negative Wins. -/
theorem C2_counterexample :
    wcNormalize [exC2] = Except.ok [⟨"", -1, 0, 0, none, none⟩] ∧
    parsePyInt exC2.wins = some (-1) ∧
    ¬((0 : Int) ≤ -1) ∧ ("" : String).length = 0 := by
  decide

/-- Claim C2 as amended: every record produced by the normalizer has a
non-null team by construction, and whenever the count cells of the
input rows parse as nonnegative integers and every present raw team
name normalizes to a non-empty string, the produced records satisfy
Wins, RunnersUp, TotalFinals nonnegative and Team non-empty. -/
theorem C2_normalized_invariants (rows : List RawRow) (l : List TeamRecord)
    (h : wcNormalize rows = Except.ok l)
    (hnn : ∀ r ∈ rows, 0 ≤ (parsePyInt r.wins).getD 0 ∧
      0 ≤ (parsePyInt r.runnersUp).getD 0 ∧ 0 ≤ (parsePyInt r.totalFinals).getD 0)
    (hne : ∀ r ∈ rows, ((r.team).map normalizeTeam).getD "x" ≠ "") :
    ∀ rec ∈ l, 0 ≤ rec.wins ∧ 0 ≤ rec.runnersUp ∧ 0 ≤ rec.totalFinals ∧ rec.team ≠ "" := by
  intro rec hrec
  rcases wcNormalize_shape rows l h rec hrec with ⟨r, hr, t, ht, hteam, hw, hru, htf⟩
  rcases hnn r hr with ⟨h1, h2, h3⟩
  rw [hw] at h1
  rw [hru] at h2
  rw [htf] at h3
  simp only [Option.getD_some] at h1 h2 h3
  refine ⟨h1, h2, h3, ?_⟩
  have hx := hne r hr
  rw [ht] at hx
  rw [hteam]
  exact hx

/-- Witness for the amended C2 at a concrete one-row table with
nonnegative counts and a footnoted but non-empty team name. -/
theorem C2_normalized_invariants_witness :
    (0 : Int) ≤ 5 ∧ (0 : Int) ≤ 2 ∧ (0 : Int) ≤ 7 ∧ ("Brazil" : String) ≠ "" :=
  C2_normalized_invariants [exC2w] [⟨"Brazil", 5, 2, 7, some "1958", some "1950"⟩]
    (by decide) (by decide) (by decide)
    ⟨"Brazil", 5, 2, 7, some "1958", some "1950"⟩ (by decide)

/-- Counterexample to C3 as stated: on a table list with no matching
header the program fails with the unbound-variable NameError of line
15, which is not a dedicated table-not-found error. -/
theorem C3_counterexample :
    selectTable [exC3bad] = Except.error PyError.nameError ∧
    PyError.nameError ≠ PyError.tableNotFound := by
  decide

/-- Claim C3 as amended: the selector returns the first parsed table
whose stringified header contains both the Team and the Winners
markers, and when no table matches the run fails with the
unbound-variable NameError rather than a dedicated table-not-found
error. -/
theorem C3_selector_firstMatch :
    (∀ (pre : List RawTable) (t : RawTable) (post : List RawTable),
      hasMarkers t = true → (∀ u ∈ pre, hasMarkers u = false) →
      selectTable (pre ++ t :: post) = Except.ok t) ∧
    (∀ tables : List RawTable, (∀ u ∈ tables, hasMarkers u = false) →
      selectTable tables = Except.error PyError.nameError) := by
  constructor
  · intro pre t post ht hpre
    rw [selectTable]
    have hfind : (pre ++ t :: post).find? hasMarkers = some t := by
      induction pre with
      | nil =>
        rw [List.nil_append]
        exact List.find?_cons_of_pos post ht
      | cons u pre ih =>
        have hu : hasMarkers u = false := hpre u (List.mem_cons_self u pre)
        rw [List.cons_append, List.find?_cons_of_neg _ (by rw [hu]; exact Bool.false_ne_true)]
        exact ih (fun v hv => hpre v (List.mem_cons_of_mem u hv))
    rw [hfind]
  · intro tables htab
    rw [selectTable]
    have hfind : tables.find? hasMarkers = none := by
      rw [List.find?_eq_none]
      intro x hx
      rw [htab x hx]
      exact Bool.false_ne_true
    rw [hfind]

/-- Witness for the amended C3: a non-matching table followed by a
matching one selects the matching one, and a list of only non-matching
tables gives the NameError. -/
theorem C3_selector_firstMatch_witness :
    selectTable [exC3bad, exC3good] = Except.ok exC3good ∧
    selectTable [exC3bad] = Except.error PyError.nameError :=
  ⟨C3_selector_firstMatch.1 [exC3bad] exC3good [] (by decide) (by decide),
   C3_selector_firstMatch.2 [exC3bad] (by decide)⟩

/-- Counterexample to C8 as stated: the Code column is computed on line
55 for every row, before the Wins filter of line 57, so the lookup is
consulted for a team with zero wins and attaches its code. -/
theorem C8_counterexample :
    addCodes [exC8] = [(exC8, some "HRV")] ∧ ¬(0 < exC8.wins) := by
  decide

/-- Claim C8 as amended: the code mapping is a pure lookup in a fixed
table of exactly 13 entries, returning the stored code for a key and
none otherwise; it is applied to every team row before the Wins filter,
and the filtered winners table equals what filtering before mapping
would give, every row of it having positive Wins. -/
theorem C8_code_lookup :
    iso_codes.length = 13 ∧
    (∀ t c, (t, c) ∈ iso_codes → lookupCode t = some c) ∧
    (∀ t, t ∉ iso_codes.map (fun p => p.1) → lookupCode t = none) ∧
    (∀ l : List TeamRecord,
      winnersTable l = addCodes (l.filter (fun r => 0 < r.wins))) ∧
    (∀ (l : List TeamRecord) (p : TeamRecord × Option String),
      p ∈ winnersTable l → 0 < p.1.wins) := by
  refine ⟨by decide, ?_, ?_, ?_, ?_⟩
  · intro t c h
    fin_cases h <;> decide
  · intro t h
    exact lookupCode_not_key t h
  · intro l
    rw [winnersTable, addCodes, addCodes, List.filter_map]
    rfl
  · intro l p hp
    rw [winnersTable] at hp
    simpa using (List.mem_filter.mp hp).2

/-- Witness for the amended C8 at concrete names and a concrete
zero-wins row. -/
theorem C8_code_lookup_witness :
    lookupCode "Brazil" = some "BRA" ∧ lookupCode "Portugal" = none ∧
    winnersTable [exC8] = addCodes (List.filter (fun r => 0 < r.wins) [exC8]) :=
  ⟨C8_code_lookup.2.1 "Brazil" "BRA" (by decide),
   C8_code_lookup.2.2.1 "Portugal" (by decide),
   C8_code_lookup.2.2.2.1 [exC8]⟩

end DV
